import Mathlib

/-!
Verification of the delivery-pooling engine (`src/services/poolingService.ts`).

The TypeScript service is shallowly embedded: JavaScript numbers are modelled
as real numbers, `Date` creation timestamps as integers (milliseconds),
JavaScript `Map`s as association lists in insertion order, and the
timestamp-plus-randomness pool-id generator as a fresh natural-number counter
(only freshness and distinctness of the generated ids matter to the engine).
`Math.atan2` is modelled by the argument of a complex number, which agrees
with the JavaScript conventions on the whole plane including `atan2 0 0 = 0`.
`Math.sqrt` of a negative number is `NaN` in JavaScript while `Real.sqrt`
returns 0; the difference is only reachable on latitudes outside [-90, 90],
which the spec assigns to the geocoding collaborator to rule out.
-/

open Classical

noncomputable section

/-- A stop location: latitude, longitude (degrees) and a display address. -/
structure Coord where
  lat : ℝ
  lng : ℝ
  address : String

instance : Inhabited Coord := ⟨⟨0, 0, ""⟩⟩

/-- `PoolRequest` from the source: one delivery ask. -/
structure PoolRequest where
  id : String
  customerId : String
  pickup : Coord
  dropoff : Coord
  packageWeight : ℝ
  maxWaitTime : ℝ
  createdAt : ℤ

/-- `PoolMatch` from the source: a pool and its derived fields. -/
structure PoolMatch where
  id : ℕ
  requests : List PoolRequest
  route : List Coord
  totalDistance : ℝ
  estimatedTime : ℝ
  costPerCustomer : ℝ
  savings : ℝ

/-- `Math.atan2 y x`, via the complex argument: range (-π, π], `atan2 0 0 = 0`. -/
def atan2 (y x : ℝ) : ℝ := Complex.arg ⟨x, y⟩

/-- JavaScript `x % y` on the operands occurring in `calculateBearing`:
both are positive there, where `%` agrees with the floor-based remainder. -/
def jsFmod (x y : ℝ) : ℝ := x - y * ⌊x / y⌋

/-- `calculateDistance` from the source: haversine distance, Earth radius 6371 km. -/
def calculateDistance (point1 point2 : Coord) : ℝ :=
  let R : ℝ := 6371
  let dLat := (point2.lat - point1.lat) * Real.pi / 180
  let dLng := (point2.lng - point1.lng) * Real.pi / 180
  let a := Real.sin (dLat / 2) * Real.sin (dLat / 2) +
      Real.cos (point1.lat * Real.pi / 180) * Real.cos (point2.lat * Real.pi / 180) *
        (Real.sin (dLng / 2) * Real.sin (dLng / 2))
  let c := 2 * atan2 (Real.sqrt a) (Real.sqrt (1 - a))
  R * c

/-- `calculateBearing` from the source: initial bearing, result of `(· + 360) % 360`. -/
def calculateBearing (point1 point2 : Coord) : ℝ :=
  let lat1 := point1.lat * Real.pi / 180
  let lat2 := point2.lat * Real.pi / 180
  let deltaLng := (point2.lng - point1.lng) * Real.pi / 180
  let y := Real.sin deltaLng * Real.cos lat2
  let x := Real.cos lat1 * Real.sin lat2 -
      Real.sin lat1 * Real.cos lat2 * Real.cos deltaLng
  let bearing := atan2 y x * 180 / Real.pi
  jsFmod (bearing + 360) 360

lemma atan2_zero_one : atan2 0 1 = 0 := by
  have h : (⟨1, 0⟩ : ℂ) = 1 := by
    apply Complex.ext <;> simp
  simp [atan2, h]

lemma atan2_zero_zero : atan2 0 0 = 0 := by
  have h : (⟨0, 0⟩ : ℂ) = 0 := by
    apply Complex.ext <;> simp
  simp [atan2, h]

/-- The haversine distance between two points with the same coordinates is 0. -/
lemma calculateDistance_same (p q : Coord) (h1 : p.lat = q.lat) (h2 : p.lng = q.lng) :
    calculateDistance p q = 0 := by
  simp only [calculateDistance, h1, h2, sub_self, zero_mul, zero_div, Real.sin_zero,
    mul_zero, zero_add, add_zero, Real.sqrt_zero, sub_zero, Real.sqrt_one]
  rw [atan2_zero_one]
  ring

/-- The haversine distance is nonnegative (the `atan2` argument has
nonnegative second component, so the angle lies in [0, π]). -/
lemma calculateDistance_nonneg (p q : Coord) : 0 ≤ calculateDistance p q := by
  simp only [calculateDistance]
  have harg : 0 ≤ atan2 (Real.sqrt (Real.sin ((q.lat - p.lat) * Real.pi / 180 / 2) *
      Real.sin ((q.lat - p.lat) * Real.pi / 180 / 2) +
      Real.cos (p.lat * Real.pi / 180) * Real.cos (q.lat * Real.pi / 180) *
        (Real.sin ((q.lng - p.lng) * Real.pi / 180 / 2) *
          Real.sin ((q.lng - p.lng) * Real.pi / 180 / 2))))
      (Real.sqrt (1 - (Real.sin ((q.lat - p.lat) * Real.pi / 180 / 2) *
      Real.sin ((q.lat - p.lat) * Real.pi / 180 / 2) +
      Real.cos (p.lat * Real.pi / 180) * Real.cos (q.lat * Real.pi / 180) *
        (Real.sin ((q.lng - p.lng) * Real.pi / 180 / 2) *
          Real.sin ((q.lng - p.lng) * Real.pi / 180 / 2))))) := by
    rw [atan2, Complex.arg_nonneg_iff]
    exact Real.sqrt_nonneg _
  positivity

/-- The bearing between two points with identical coordinates is 0
(`atan2 0 0 = 0`, then `(0 + 360) % 360 = 0`). -/
lemma calculateBearing_same (p q : Coord) (h1 : p.lat = q.lat) (h2 : p.lng = q.lng) :
    calculateBearing p q = 0 := by
  simp only [calculateBearing, h1, h2, sub_self, zero_mul, zero_div, Real.sin_zero,
    Real.cos_zero, mul_one, mul_zero, zero_sub, sub_self]
  have hx : Real.cos (q.lat * Real.pi / 180) * Real.sin (q.lat * Real.pi / 180) -
      Real.sin (q.lat * Real.pi / 180) * Real.cos (q.lat * Real.pi / 180) = 0 := by
    ring
  rw [hx, atan2_zero_zero]
  have h360 : (0 : ℝ) * 180 / Real.pi + 360 = 360 := by
    ring
  rw [h360]
  norm_num [jsFmod]

/-- `jsFmod x 360` lies in `[0, 360)`. -/
lemma jsFmod_nonneg_lt (x : ℝ) : 0 ≤ jsFmod x 360 ∧ jsFmod x 360 < 360 := by
  have h : jsFmod x 360 = 360 * Int.fract (x / 360) := by
    rw [jsFmod, Int.fract]
    ring
  constructor
  · rw [h]
    have := Int.fract_nonneg (x / 360)
    linarith
  · rw [h]
    have := Int.fract_lt_one (x / 360)
    linarith

/-- The bearing computed by the source lies in `[0, 360)`. -/
lemma calculateBearing_mem (p q : Coord) :
    0 ≤ calculateBearing p q ∧ calculateBearing p q < 360 := by
  simp only [calculateBearing]
  exact jsFmod_nonneg_lt _

end

noncomputable section

/-- `calculateDirectionSimilarity` from the source. -/
def calculateDirectionSimilarity (req1 req2 : PoolRequest) : ℝ :=
  let bearing1 := calculateBearing req1.pickup req1.dropoff
  let bearing2 := calculateBearing req2.pickup req2.dropoff
  let angleDiff := |bearing1 - bearing2|
  let angleDiff := if angleDiff > 180 then 360 - angleDiff else angleDiff
  max 0 (1 - angleDiff / 90)

/-- Per-member composite score computed in the loop body of
`calculateRouteCompatibility`: pickup proximity 30%, dropoff proximity 30%,
direction similarity 40%. -/
def requestPairScore (existingRequest request : PoolRequest) : ℝ :=
  let pickupDistance := calculateDistance existingRequest.pickup request.pickup
  let pickupScore := max 0 (1 - pickupDistance / 5)
  let dropoffDistance := calculateDistance existingRequest.dropoff request.dropoff
  let dropoffScore := max 0 (1 - dropoffDistance / 5)
  let directionScore := calculateDirectionSimilarity existingRequest request
  pickupScore * 0.3 + dropoffScore * 0.3 + directionScore * 0.4

/-- `calculateRouteCompatibility` from the source: sum of per-member composite
scores divided by the number of comparisons, 0 when there are none. -/
def calculateRouteCompatibility (pool : PoolMatch) (request : PoolRequest) : ℝ :=
  let totalScore := (pool.requests.map (fun e => requestPairScore e request)).foldl (· + ·) 0
  let comparisons := pool.requests.length
  if 0 < comparisons then totalScore / (comparisons : ℝ) else 0

/-- `calculateAdditionalTime` from the source: a fixed estimate,
`2 stops * 5 minutes + 10 minutes route deviation` (the pool's
`estimatedTime` is read into a variable the source never uses). -/
def calculateAdditionalTime (pool : PoolMatch) (request : PoolRequest) : ℝ :=
  let additionalStops : ℝ := 2
  let timePerStop : ℝ := 5
  let routeDeviation : ℝ := 10
  additionalStops * timePerStop + routeDeviation

/-- `calculatePoolCost` from the source: cost per customer if `request` were
added to `pool` — note the `+ 2` km estimated extra distance and the division
by `pool.requests.length + 1`. -/
def calculatePoolCost (pool : PoolMatch) (request : PoolRequest) : ℝ :=
  let baseFare : ℝ := 50
  let totalDistance := pool.totalDistance + 2
  let distanceCost := totalDistance * 10
  let totalCost := baseFare + distanceCost
  totalCost / ((pool.requests.length : ℝ) + 1)

/-- Body of `calculateSavings` factored over the fields it reads. -/
def calculateSavingsAux (requests : List PoolRequest) (costPerCustomer : ℝ) : ℝ :=
  if requests.length = 1 then 0
  else
    (requests.map (fun r => 50 + calculateDistance r.pickup r.dropoff * 10)).foldl (· + ·) 0 -
      costPerCustomer * (requests.length : ℝ)

/-- `calculateSavings` from the source: total of solo costs minus the pool's
total cost, and explicitly 0 for a single-member pool. -/
def calculateSavings (pool : PoolMatch) : ℝ :=
  calculateSavingsAux pool.requests pool.costPerCustomer

/-- The four filters of `findMatchingPool`, in source order: capacity below 3,
additional time at most 15 minutes, compatibility at least 0.7, and the
projected per-customer cost below 110% of the current one. -/
def poolJoinable (pool : PoolMatch) (request : PoolRequest) : Prop :=
  pool.requests.length < 3 ∧
    calculateAdditionalTime pool request ≤ 15 ∧
    0.7 ≤ calculateRouteCompatibility pool request ∧
    calculatePoolCost pool request < pool.costPerCustomer * 1.1

/-- `findMatchingPool` from the source: first pool (in registry insertion
order) passing all four filters. -/
def findMatchingPool : List (ℕ × PoolMatch) → PoolRequest → Option (ℕ × PoolMatch)
  | [], _ => none
  | p :: rest, request =>
    if poolJoinable p.2 request then some p else findMatchingPool rest request

/-- Pickup ordering of `optimizeRoute`: the JavaScript stable sort by the
`createdAt` comparator, modelled by (stable) insertion sort. -/
def sortByTime (requests : List PoolRequest) : List PoolRequest :=
  requests.insertionSort (fun a b => a.createdAt ≤ b.createdAt)

/-- The index scan of the `optimizeRoute` while-loop: running best index and
best distance, updated only on strict improvement. -/
def nearestIndexAux (current : Coord) : List Coord → ℕ → ℕ → ℝ → ℕ
  | [], _, bi, _ => bi
  | p :: rest, i, bi, bd =>
    if calculateDistance current p < bd then
      nearestIndexAux current rest (i + 1) i (calculateDistance current p)
    else
      nearestIndexAux current rest (i + 1) bi bd

/-- Index of the nearest remaining dropoff, ties broken towards the first
occurrence (the source starts from index 0 and updates on strict `<`). -/
def nearestIndex (current : Coord) : List Coord → ℕ
  | [] => 0
  | p :: rest => nearestIndexAux current rest 1 0 (calculateDistance current p)

lemma nearestIndexAux_lt (current : Coord) :
    ∀ (pts : List Coord) (i bi : ℕ) (bd : ℝ), bi < i →
      nearestIndexAux current pts i bi bd < i + pts.length
  | [], i, bi, bd, h => by
    simpa [nearestIndexAux] using h
  | p :: rest, i, bi, bd, h => by
    rw [nearestIndexAux]
    split
    · have := nearestIndexAux_lt current rest (i + 1) i (calculateDistance current p)
        (Nat.lt_succ_self i)
    
      simpa [Nat.add_comm, Nat.add_left_comm] using this
    · have := nearestIndexAux_lt current rest (i + 1) bi bd (Nat.lt_succ_of_lt h)
      simpa [Nat.add_comm, Nat.add_left_comm] using this

lemma nearestIndex_lt (current : Coord) (p : Coord) (rest : List Coord) :
    nearestIndex current (p :: rest) < (p :: rest).length := by
  have := nearestIndexAux_lt current rest 1 0 (calculateDistance current p) Nat.one_pos
  simpa [nearestIndex, Nat.add_comm] using this

/-- The dropoff phase of `optimizeRoute`: repeatedly pick the nearest
remaining dropoff (by scan index), append it and continue from it. -/
def nnLoop : Coord → List Coord → List Coord
  | _, [] => []
  | current, p :: rest =>
    let i := nearestIndex current (p :: rest)
    (p :: rest).getD i default ::
      nnLoop ((p :: rest).getD i default) ((p :: rest).eraseIdx i)
termination_by _ l => l.length
decreasing_by
  simp only [List.length_eraseIdx, nearestIndex_lt, if_pos]
  have h := nearestIndex_lt current p rest
  omega

/-- `calculateTotalDistance` from the source: sum of consecutive-stop distances. -/
def calculateTotalDistance : List Coord → ℝ
  | a :: b :: rest => calculateDistance a b + calculateTotalDistance (b :: rest)
  | _ => 0

/-- `calculateEstimatedTime` from the source: 2 minutes per km plus 5 minutes
per stop, 2 stops per customer. -/
def calculateEstimatedTime (route : List Coord) (customerCount : ℕ) : ℝ :=
  let distance := calculateTotalDistance route
  let baseTime := distance * 2
  let stopTime := ((customerCount : ℝ) * 2) * 5
  baseTime + stopTime

/-- `optimizeRoute` from the source: a single request maps to
`[pickup, dropoff]`; otherwise all pickups sorted by creation time, then the
nearest-neighbour dropoff loop starting at the last pickup. The source's
route entries carry extra `type`/`requestId` tags that no consumer and no
declared type retains; the embedding keeps the coordinate fields. -/
def optimizeRoute (requests : List PoolRequest) : List Coord :=
  match requests with
  | [r] => [r.pickup, r.dropoff]
  | rs =>
    let pickups := (sortByTime rs).map (fun r => r.pickup)
    match pickups.getLast? with
    | none => []
    | some currentLocation => pickups ++ nnLoop currentLocation (rs.map (fun r => r.dropoff))

end

noncomputable section

/-- The engine's registry state: active requests and pools as
insertion-ordered association lists (JavaScript `Map`s preserve insertion
order, and `set` on an existing key keeps its position), plus the counter
standing in for the timestamp-and-randomness pool-id generator. -/
structure ServiceState where
  activeRequests : List (String × PoolRequest)
  pools : List (ℕ × PoolMatch)
  nextPoolId : ℕ

/-- JavaScript `Map.set`: replace in place if the key exists, else append. -/
def mapSet (m : List (String × PoolRequest)) (k : String) (v : PoolRequest) :
    List (String × PoolRequest) :=
  if m.any (fun kv => kv.1 == k) then
    m.map (fun kv => if kv.1 == k then (k, v) else kv)
  else
    m ++ [(k, v)]

/-- JavaScript `Map.delete` on a map with unique keys. -/
def mapDelete (m : List (String × PoolRequest)) (k : String) :
    List (String × PoolRequest) :=
  m.filter (fun kv => ! (kv.1 == k))

/-- `createNewPool` from the source: a single-member pool with route
`[pickup, dropoff]`, distance between them, base time 30, base cost 100 and
savings 0, appended to the registry under a fresh id. -/
def createNewPool (st : ServiceState) (request : PoolRequest) : ℕ × ServiceState :=
  let poolId := st.nextPoolId
  let pool : PoolMatch :=
    { id := poolId
      requests := [request]
      route := [request.pickup, request.dropoff]
      totalDistance := calculateDistance request.pickup request.dropoff
      estimatedTime := 30
      costPerCustomer := 100
      savings := 0 }
  (poolId, { st with pools := st.pools ++ [(poolId, pool)], nextPoolId := st.nextPoolId + 1 })

/-- The mutation `addToExistingPool` performs on the found pool: push the
request, then recompute route, distance, time, cost (via `calculatePoolCost`
on the already-grown pool) and savings, in source order. -/
def joinPool (pool : PoolMatch) (request : PoolRequest) : PoolMatch :=
  let requests := pool.requests ++ [request]
  let route := optimizeRoute requests
  let totalDistance := calculateTotalDistance route
  let estimatedTime := calculateEstimatedTime route requests.length
  let pool1 : PoolMatch :=
    { id := pool.id, requests := requests, route := route,
      totalDistance := totalDistance, estimatedTime := estimatedTime,
      costPerCustomer := pool.costPerCustomer, savings := pool.savings }
  let pool2 : PoolMatch := { pool1 with costPerCustomer := calculatePoolCost pool1 request }
  { pool2 with savings := calculateSavings pool2 }

/-- `addToExistingPool` from the source: update the pool stored under
`poolId` in place. (The source throws `Pool not found` when the id is
absent; that branch is unreachable from `addPoolRequest`, which only passes
ids returned by `findMatchingPool`, and is modelled as leaving the
registry unchanged.) -/
def addToExistingPool (st : ServiceState) (poolId : ℕ) (request : PoolRequest) :
    ℕ × ServiceState :=
  (poolId,
    { st with
      pools := st.pools.map (fun pr => if pr.1 = poolId then (pr.1, joinPool pr.2 request) else pr) })

/-- `addPoolRequest` from the source (the spec's `addRequest`): record the
request, then join the first matching pool or create a new one. -/
def addPoolRequest (st : ServiceState) (request : PoolRequest) : ℕ × ServiceState :=
  let st1 : ServiceState :=
    { st with activeRequests := mapSet st.activeRequests request.id request }
  match findMatchingPool st1.pools request with
  | some (poolId, _) => addToExistingPool st1 poolId request
  | none => createNewPool st1 request

/-- `getPool` from the source: `pools.get(poolId) || null`. -/
def getPool (st : ServiceState) (poolId : ℕ) : Option PoolMatch :=
  (st.pools.find? (fun pr => pr.1 == poolId)).map (fun pr => pr.2)

/-- `findIndex` + `splice(idx, 1)` from `removeFromPool`: drop the first
request with the given id. -/
def removeReqById : List PoolRequest → String → List PoolRequest
  | [], _ => []
  | r :: rest, requestId => if r.id = requestId then rest else r :: removeReqById rest requestId

/-- The recomputation block of `removeFromPool` for a surviving pool:
route, distance and time as elsewhere, but `costPerCustomer` is the inline
`totalDistance * 10 / memberCount` (no base fare), then savings. -/
def recomputePool (pool : PoolMatch) (requests : List PoolRequest) : PoolMatch :=
  let route := optimizeRoute requests
  let totalDistance := calculateTotalDistance route
  let estimatedTime := calculateEstimatedTime route requests.length
  let costPerCustomer := totalDistance * 10 / (requests.length : ℝ)
  { id := pool.id, requests := requests, route := route,
    totalDistance := totalDistance, estimatedTime := estimatedTime,
    costPerCustomer := costPerCustomer,
    savings := calculateSavingsAux requests costPerCustomer }

/-- The pool-map update of `removeFromPool`: scan pools in insertion order,
process only the first pool containing the request id (the loop breaks),
deleting it when it becomes empty and recomputing it otherwise. -/
def removeFromPools : List (ℕ × PoolMatch) → String → List (ℕ × PoolMatch)
  | [], _ => []
  | (poolId, pool) :: rest, requestId =>
    if ∃ r ∈ pool.requests, r.id = requestId then
      if (removeReqById pool.requests requestId).isEmpty then rest
      else (poolId, recomputePool pool (removeReqById pool.requests requestId)) :: rest
    else
      (poolId, pool) :: removeFromPools rest requestId

/-- `removeFromPool` from the source (the spec's `removeRequest`): drop the
request from the active map, then update the first pool containing it.
Unknown ids fall through every branch without error. -/
def removeFromPool (st : ServiceState) (requestId : String) : ServiceState :=
  { st with
    activeRequests := mapDelete st.activeRequests requestId,
    pools := removeFromPools st.pools requestId }

/-- Registry states reachable from a fresh service instance by the public
mutating operations. -/
inductive Reachable : ServiceState → Prop
  | init : Reachable ⟨[], [], 0⟩
  | add (st : ServiceState) (request : PoolRequest) :
      Reachable st → Reachable (addPoolRequest st request).2
  | remove (st : ServiceState) (requestId : String) :
      Reachable st → Reachable (removeFromPool st requestId)


/-- Modelled from the spec (route optimizer): the minimum `distance` from the
current location to a nonempty set of not-yet-visited dropoffs. -/
def minDistTo (c : Coord) : List Coord → ℝ
  | [] => 0
  | [q] => calculateDistance c q
  | q :: q2 :: rest => min (calculateDistance c q) (minDistTo c (q2 :: rest))

/-- Modelled from the spec (route optimizer): "at each step choose the
not-yet-visited dropoff with minimum `distance` from the current location",
with "ties broken by input array order (first occurrence at minimum
distance wins)" — the first element whose distance does not exceed the
minimum over the rest, together with the remaining elements. -/
def firstAtMin (c : Coord) : List Coord → Option (Coord × List Coord)
  | [] => none
  | [q] => some (q, [])
  | q :: q2 :: rest =>
    if calculateDistance c q ≤ minDistTo c (q2 :: rest) then some (q, q2 :: rest)
    else (firstAtMin c (q2 :: rest)).map (fun pr => (pr.1, q :: pr.2))

/-- Registry well-formedness: every stored pool is nonempty and within
capacity, pool ids are distinct, and all ids are below the fresh counter. -/
def PoolsWF (st : ServiceState) : Prop :=
  (∀ pid pool, (pid, pool) ∈ st.pools → pool.requests ≠ [] ∧ pool.requests.length ≤ 3) ∧
    (st.pools.map Prod.fst).Nodup ∧
    (∀ pid pool, (pid, pool) ∈ st.pools → pid < st.nextPoolId)

/-- Concrete test coordinate (degenerate on purpose: every haversine
distance between copies of it is exactly 0, which keeps the trigonometry
evaluable). -/
def coordA : Coord := ⟨0, 0, "A"⟩

/-- First concrete request. -/
def req1 : PoolRequest := ⟨"r1", "c1", coordA, coordA, 1, 30, 0⟩

/-- Second concrete request: pickup and dropoff coincide with those of
`req1` (0 km apart, identical bearing) and it was created later. -/
def req2 : PoolRequest := ⟨"r2", "c2", coordA, coordA, 1, 30, 1⟩

/-- A fresh service instance. -/
def emptyState : ServiceState := ⟨[], [], 0⟩

/-- The registry after `addPoolRequest` of `req1` on a fresh instance. -/
def stA : ServiceState := (addPoolRequest emptyState req1).2

/-- The pool `addPoolRequest` creates for `req1`. -/
def poolA : PoolMatch :=
  ⟨0, [req1], [coordA, coordA], calculateDistance coordA coordA, 30, 100, 0⟩

/-- The registry after forcing `req2` into the pool through
`addToExistingPool` (the join path of `addRequest`). -/
def stB : ServiceState := (addToExistingPool stA 0 req2).2

/-- A pool value already at capacity (3 members). -/
def pool3 : PoolMatch := ⟨7, [req1, req1, req1], [], 0, 0, 0, 0⟩
end

noncomputable section

lemma nnLoop_nil (c : Coord) : nnLoop c [] = [] := by
  rw [nnLoop]

lemma nnLoop_cons (c p : Coord) (rest : List Coord) :
    nnLoop c (p :: rest) =
      (p :: rest).getD (nearestIndex c (p :: rest)) default ::
        nnLoop ((p :: rest).getD (nearestIndex c (p :: rest)) default)
          ((p :: rest).eraseIdx (nearestIndex c (p :: rest))) := by
  rw [nnLoop]


lemma le_minDistTo_iff (c : Coord) (x : ℝ) :
    ∀ (l : List Coord), l ≠ [] →
      (x ≤ minDistTo c l ↔ ∀ q ∈ l, x ≤ calculateDistance c q)
  | [], h => absurd rfl h
  | [q], _ => by
    simp [minDistTo]
  | q :: q2 :: rest, _ => by
    rw [minDistTo, le_min_iff, List.forall_mem_cons,
      le_minDistTo_iff c x (q2 :: rest) (by simp)]


lemma firstAtMin_length (c : Coord) :
    ∀ (l : List Coord) (qr : Coord × List Coord),
      firstAtMin c l = some qr → qr.2.length + 1 = l.length
  | [], qr, h => by
    simp [firstAtMin] at h
  | [q], qr, h => by
    simp only [firstAtMin] at h
    injection h with h
    subst h
    rfl
  | q :: q2 :: rest, qr, h => by
    rw [firstAtMin] at h
    split at h
    · injection h with h
      subst h
      rfl
    · rcases Option.map_eq_some'.mp h with ⟨pr, hpr, hmap⟩
      have hlen := firstAtMin_length c (q2 :: rest) pr hpr
      subst hmap
      simp only [List.length_cons] at hlen ⊢
      omega

lemma firstAtMin_isSome (c : Coord) :
    ∀ (p : Coord) (rest : List Coord), ∃ qr, firstAtMin c (p :: rest) = some qr := by
  intro p rest
  induction rest generalizing p with
  | nil => exact ⟨(p, []), rfl⟩
  | cons q2 rest ih =>
    rw [firstAtMin]
    split
    · exact ⟨(p, q2 :: rest), rfl⟩
    · obtain ⟨qr, hqr⟩ := ih q2
      exact ⟨(qr.1, p :: qr.2), by rw [hqr]; rfl⟩

/-- Modelled from the spec (route optimizer): the dropoff phase as the spec
words it — repeatedly take the first dropoff at minimum distance, append it
and advance the current location to it (the `getD` fallback is unreachable:
`firstAtMin` always succeeds on a nonempty list). -/
def specNN (c : Coord) (l : List Coord) : List Coord :=
  match l with
  | [] => []
  | p :: rest =>
    let qr := (firstAtMin c (p :: rest)).getD (p, rest)
    qr.1 :: specNN qr.1 qr.2
termination_by l.length
decreasing_by
  obtain ⟨qr', hqr'⟩ := firstAtMin_isSome c p rest
  have hlen := firstAtMin_length c (p :: rest) qr' hqr'
  simp only [hqr', Option.getD_some, List.length_cons] at *
  omega

lemma specNN_nil (c : Coord) : specNN c [] = [] := by
  rw [specNN]

lemma specNN_cons (c p : Coord) (rest : List Coord) (qr : Coord × List Coord)
    (h : firstAtMin c (p :: rest) = some qr) :
    specNN c (p :: rest) = qr.1 :: specNN qr.1 qr.2 := by
  rw [specNN]
  simp only [h, Option.getD_some]

end

noncomputable section

lemma nearestIndexAux_cases (c : Coord) :
    ∀ (pts : List Coord) (i bi : ℕ) (bd : ℝ),
      (nearestIndexAux c pts i bi bd = bi ∧ ∀ q ∈ pts, bd ≤ calculateDistance c q) ∨
      (∃ j, j < pts.length ∧ nearestIndexAux c pts i bi bd = i + j ∧
        calculateDistance c (pts.getD j default) < bd ∧
        (∀ k, k < j →
          calculateDistance c (pts.getD j default) < calculateDistance c (pts.getD k default)) ∧
        (∀ k, j < k → k < pts.length →
          calculateDistance c (pts.getD j default) ≤ calculateDistance c (pts.getD k default)))
  | [], i, bi, bd => by
    left
    refine ⟨rfl, ?_⟩
    intro q hq
    simp at hq
  | p :: rest, i, bi, bd => by
    rw [nearestIndexAux]
    by_cases h : calculateDistance c p < bd
    · rw [if_pos h]
      rcases nearestIndexAux_cases c rest (i + 1) i (calculateDistance c p) with
        ⟨he, hall⟩ | ⟨j, hj, he, hlt, hbef, haft⟩
      · right
        refine ⟨0, Nat.succ_pos _, by rw [he]; omega, by simpa using h, ?_, ?_⟩
        · intro k hk
          exact absurd hk (Nat.not_lt_zero k)
        · intro k h0k hklen
          obtain ⟨k', rfl⟩ : ∃ k'', k = k'' + 1 := ⟨k - 1, by omega⟩
          simp only [List.getD_cons_zero, List.getD_cons_succ]
          have hk' : k' < rest.length := by
            simpa using hklen
          have hmem : rest.getD k' default ∈ rest := by
            rw [List.getD_eq_getElem _ _ hk']
            exact List.getElem_mem hk'
          exact hall _ hmem
      · right
        refine ⟨j + 1, by simpa using Nat.succ_lt_succ hj, by rw [he]; omega, ?_, ?_, ?_⟩
        · simp only [List.getD_cons_succ]
          exact lt_trans hlt h
        · intro k hk
          cases k with
          | zero =>
            simpa only [List.getD_cons_succ, List.getD_cons_zero] using hlt
          | succ k' =>
            simp only [List.getD_cons_succ]
            exact hbef k' (by omega)
        · intro k hjk hklen
          cases k with
          | zero => omega
          | succ k' =>
            simp only [List.getD_cons_succ]
            exact haft k' (by omega) (by simpa using hklen)
    · rw [if_neg h]
      rcases nearestIndexAux_cases c rest (i + 1) bi bd with
        ⟨he, hall⟩ | ⟨j, hj, he, hlt, hbef, haft⟩
      · left
        refine ⟨he, ?_⟩
        intro q hq
        rcases List.mem_cons.mp hq with rfl | hq'
        · exact not_lt.mp h
        · exact hall q hq'
      · right
        refine ⟨j + 1, by simpa using Nat.succ_lt_succ hj, by rw [he]; omega, ?_, ?_, ?_⟩
        · simp only [List.getD_cons_succ]
          exact hlt
        · intro k hk
          cases k with
          | zero =>
            simp only [List.getD_cons_succ, List.getD_cons_zero]
            exact lt_of_lt_of_le hlt (not_lt.mp h)
          | succ k' =>
            simp only [List.getD_cons_succ]
            exact hbef k' (by omega)
        · intro k hjk hklen
          cases k with
          | zero => omega
          | succ k' =>
            simp only [List.getD_cons_succ]
            exact haft k' (by omega) (by simpa using hklen)

/-- The scan of the source's while-loop returns a first-argmin index: it is
in range, its distance is minimal, and every earlier index has strictly
larger distance. -/
lemma nearestIndex_spec (c p : Coord) (rest : List Coord) :
    nearestIndex c (p :: rest) < (p :: rest).length ∧
      (∀ q ∈ p :: rest,
        calculateDistance c ((p :: rest).getD (nearestIndex c (p :: rest)) default) ≤
          calculateDistance c q) ∧
      (∀ k, k < nearestIndex c (p :: rest) →
        calculateDistance c ((p :: rest).getD (nearestIndex c (p :: rest)) default) <
          calculateDistance c ((p :: rest).getD k default)) := by
  rw [nearestIndex]
  rcases nearestIndexAux_cases c rest 1 0 (calculateDistance c p) with
    ⟨he, hall⟩ | ⟨j, hj, he, hlt, hbef, haft⟩
  · rw [he]
    refine ⟨Nat.succ_pos _, ?_, ?_⟩
    · intro q hq
      rcases List.mem_cons.mp hq with rfl | hq'
      · simp
      · simpa only [List.getD_cons_zero] using hall q hq'
    · intro k hk
      exact absurd hk (Nat.not_lt_zero k)
  · rw [he]
    have h1j : 1 + j = j + 1 := by omega
    rw [h1j]
    simp only [List.getD_cons_succ]
    refine ⟨by simpa using Nat.succ_lt_succ hj, ?_, ?_⟩
    · intro q hq
      rcases List.mem_cons.mp hq with rfl | hq'
      · exact le_of_lt hlt
      · obtain ⟨k, hk, hkq⟩ := List.mem_iff_getElem.mp hq'
        rw [← List.getD_eq_getElem _ default hk] at hkq
        rcases lt_trichotomy k j with hkj | rfl | hjk
        · exact hkq ▸ le_of_lt (hbef k hkj)
        · exact hkq ▸ le_refl _
        · exact hkq ▸ haft k hjk hk
    · intro k hk
      cases k with
      | zero =>
        simpa only [List.getD_cons_zero] using hlt
      | succ k' =>
        simp only [List.getD_cons_succ]
        exact hbef k' (by omega)

end

noncomputable section

lemma firstAtMin_spec (c : Coord) :
    ∀ (l : List Coord), l ≠ [] →
      ∃ i, i < l.length ∧
        firstAtMin c l = some (l.getD i default, l.eraseIdx i) ∧
        (∀ q ∈ l, calculateDistance c (l.getD i default) ≤ calculateDistance c q) ∧
        (∀ k, k < i →
          calculateDistance c (l.getD i default) < calculateDistance c (l.getD k default))
  | [], h => absurd rfl h
  | [q], _ => by
    refine ⟨0, Nat.one_pos, rfl, ?_, ?_⟩
    · intro q' hq'
      rcases List.mem_cons.mp hq' with rfl | hq''
      · simp
      · simp at hq''
    · intro k hk
      exact absurd hk (Nat.not_lt_zero k)
  | q :: q2 :: rest, _ => by
    rw [firstAtMin]
    by_cases hc : calculateDistance c q ≤ minDistTo c (q2 :: rest)
    · rw [if_pos hc]
      refine ⟨0, Nat.succ_pos _, rfl, ?_, ?_⟩
      · intro q' hq'
        rcases List.mem_cons.mp hq' with rfl | hq''
        · simp
        · simp only [List.getD_cons_zero]
          exact (le_minDistTo_iff c (calculateDistance c q) (q2 :: rest) (by simp)).mp hc q' hq''
      · intro k hk
        exact absurd hk (Nat.not_lt_zero k)
    · rw [if_neg hc]
      obtain ⟨i', hi', heq, hmin, hbef⟩ := firstAtMin_spec c (q2 :: rest) (by simp)
      have hminle : calculateDistance c ((q2 :: rest).getD i' default) ≤
          minDistTo c (q2 :: rest) := by
        rw [le_minDistTo_iff c _ (q2 :: rest) (by simp)]
        exact hmin
      have hqlt : calculateDistance c ((q2 :: rest).getD i' default) < calculateDistance c q :=
        lt_of_le_of_lt hminle (not_le.mp hc)
      refine ⟨i' + 1, by simpa using Nat.succ_lt_succ hi', ?_, ?_, ?_⟩
      · rw [heq]
        simp only [Option.map_some', Option.some.injEq, Prod.mk.injEq,
          List.getD_cons_succ, List.eraseIdx_cons_succ]
      · intro q' hq'
        rcases List.mem_cons.mp hq' with rfl | hq''
        · simpa only [List.getD_cons_succ] using le_of_lt hqlt
        · simpa only [List.getD_cons_succ] using hmin q' hq''
      · intro k hk
        cases k with
        | zero =>
          simpa only [List.getD_cons_succ, List.getD_cons_zero] using hqlt
        | succ k' =>
          simpa only [List.getD_cons_succ] using hbef k' (by omega)

lemma firstArgmin_unique (c : Coord) (l : List Coord) (i i' : ℕ)
    (hi : i < l.length) (hi' : i' < l.length)
    (hmin : ∀ q ∈ l, calculateDistance c (l.getD i default) ≤ calculateDistance c q)
    (hbef : ∀ k, k < i →
      calculateDistance c (l.getD i default) < calculateDistance c (l.getD k default))
    (hmin' : ∀ q ∈ l, calculateDistance c (l.getD i' default) ≤ calculateDistance c q)
    (hbef' : ∀ k, k < i' →
      calculateDistance c (l.getD i' default) < calculateDistance c (l.getD k default)) :
    i = i' := by
  have hmemi : l.getD i default ∈ l := by
    rw [List.getD_eq_getElem _ _ hi]
    exact List.getElem_mem hi
  have hmemi' : l.getD i' default ∈ l := by
    rw [List.getD_eq_getElem _ _ hi']
    exact List.getElem_mem hi'
  rcases lt_trichotomy i i' with h | h | h
  · exact absurd (hmin _ hmemi') (not_le.mpr (hbef' i h))
  · exact h
  · exact absurd (hmin' _ hmemi) (not_le.mpr (hbef i' h))

/-- The source's index-scan selection and the spec's first-at-minimum
selection agree, both in the chosen stop and in the remaining list. -/
lemma firstAtMin_eq_nearest (c p : Coord) (rest : List Coord) :
    firstAtMin c (p :: rest) =
      some ((p :: rest).getD (nearestIndex c (p :: rest)) default,
        (p :: rest).eraseIdx (nearestIndex c (p :: rest))) := by
  obtain ⟨i', hi', heq, hmin', hbef'⟩ := firstAtMin_spec c (p :: rest) (by simp)
  obtain ⟨hlt, hmin, hbef⟩ := nearestIndex_spec c p rest
  have hii : nearestIndex c (p :: rest) = i' :=
    firstArgmin_unique c (p :: rest) _ i' hlt hi' hmin hbef hmin' hbef'
  rw [heq, hii]

lemma nnLoop_eq_specNN_aux :
    ∀ (n : ℕ) (c : Coord) (l : List Coord), l.length ≤ n → nnLoop c l = specNN c l
  | _, c, [], _ => by
    rw [nnLoop_nil, specNN_nil]
  | 0, _, p :: rest, h => by
    simp at h
  | n + 1, c, p :: rest, h => by
    rw [nnLoop_cons, specNN_cons c p rest _ (firstAtMin_eq_nearest c p rest)]
    have hlt := nearestIndex_lt c p rest
    have hlen : ((p :: rest).eraseIdx (nearestIndex c (p :: rest))).length ≤ n := by
      rw [List.length_eraseIdx]
      simp only [hlt, if_pos]
      simp only [List.length_cons] at h ⊢
      omega
    exact congrArg (List.cons _) (nnLoop_eq_specNN_aux n _ _ hlen)

/-- The dropoff loop of the source equals the spec's repeated
first-at-minimum nearest-neighbour selection. -/
lemma nnLoop_eq_specNN (c : Coord) (l : List Coord) : nnLoop c l = specNN c l :=
  nnLoop_eq_specNN_aux l.length c l le_rfl

end

noncomputable section

lemma sortByTime_sorted (l : List PoolRequest) :
    List.Sorted (fun a b : PoolRequest => a.createdAt ≤ b.createdAt) (sortByTime l) := by
  haveI h1 : IsTotal PoolRequest (fun a b => a.createdAt ≤ b.createdAt) :=
    ⟨fun a b => le_total _ _⟩
  haveI h2 : IsTrans PoolRequest (fun a b => a.createdAt ≤ b.createdAt) :=
    ⟨fun a b c hab hbc => le_trans hab hbc⟩
  exact List.sorted_insertionSort _ l

lemma sortByTime_perm (l : List PoolRequest) : List.Perm (sortByTime l) l :=
  List.perm_insertionSort _ l

lemma getLast?_eq_getLastD (l : List Coord) (h : l ≠ []) :
    l.getLast? = some (l.getLastD default) := by
  induction l with
  | nil => exact absurd rfl h
  | cons a t ih =>
    cases t with
    | nil => rfl
    | cons b t2 =>
      rw [List.getLast?_cons_cons, ih (by simp)]
      rfl

lemma optimizeRoute_cons2 (a b : PoolRequest) (t : List PoolRequest) :
    optimizeRoute (a :: b :: t) =
      (sortByTime (a :: b :: t)).map (fun r => r.pickup) ++
        nnLoop (((sortByTime (a :: b :: t)).map (fun r => r.pickup)).getLastD default)
          ((a :: b :: t).map (fun r => r.dropoff)) := by
  have hne : (sortByTime (a :: b :: t)).map (fun r => r.pickup) ≠ [] := by
    have hlen := (sortByTime_perm (a :: b :: t)).length_eq
    intro hempty
    rw [← List.length_eq_zero] at hempty
    rw [List.length_map] at hempty
    rw [hempty] at hlen
    simp at hlen
  rw [optimizeRoute]
  · rw [getLast?_eq_getLastD _ hne]
  · intro r hr
    simp at hr

end

noncomputable section

lemma calculateDirectionSimilarity_mem (req1 req2 : PoolRequest) :
    0 ≤ calculateDirectionSimilarity req1 req2 ∧ calculateDirectionSimilarity req1 req2 ≤ 1 := by
  obtain ⟨hb1l, hb1u⟩ := calculateBearing_mem req1.pickup req1.dropoff
  obtain ⟨hb2l, hb2u⟩ := calculateBearing_mem req2.pickup req2.dropoff
  simp only [calculateDirectionSimilarity]
  constructor
  · exact le_max_left _ _
  · apply max_le (by norm_num)
    have habs : |calculateBearing req1.pickup req1.dropoff -
        calculateBearing req2.pickup req2.dropoff| < 360 := by
      rw [abs_lt]
      constructor <;> linarith
    split
    · linarith
    · have := abs_nonneg (calculateBearing req1.pickup req1.dropoff -
        calculateBearing req2.pickup req2.dropoff)
      linarith

lemma requestPairScore_mem (existingRequest request : PoolRequest) :
    0 ≤ requestPairScore existingRequest request ∧
      requestPairScore existingRequest request ≤ 1 := by
  obtain ⟨hd0, hd1⟩ := calculateDirectionSimilarity_mem existingRequest request
  have hp0 := calculateDistance_nonneg existingRequest.pickup request.pickup
  have hq0 := calculateDistance_nonneg existingRequest.dropoff request.dropoff
  simp only [requestPairScore]
  have hpl : (0 : ℝ) ≤ max 0 (1 - calculateDistance existingRequest.pickup request.pickup / 5) :=
    le_max_left _ _
  have hpu : max 0 (1 - calculateDistance existingRequest.pickup request.pickup / 5) ≤ 1 :=
    max_le (by norm_num) (by linarith)
  have hql : (0 : ℝ) ≤ max 0 (1 - calculateDistance existingRequest.dropoff request.dropoff / 5) :=
    le_max_left _ _
  have hqu : max 0 (1 - calculateDistance existingRequest.dropoff request.dropoff / 5) ≤ 1 :=
    max_le (by norm_num) (by linarith)
  constructor <;> nlinarith

lemma foldl_add_bounds :
    ∀ (l : List ℝ) (a : ℝ), (∀ x ∈ l, 0 ≤ x ∧ x ≤ 1) →
      a ≤ l.foldl (· + ·) a ∧ l.foldl (· + ·) a ≤ a + (l.length : ℝ)
  | [], a, _ => ⟨le_rfl, by simp⟩
  | x :: t, a, h => by
    simp only [List.foldl_cons, List.length_cons]
    obtain ⟨hx0, hx1⟩ := h x (by simp)
    have ht := foldl_add_bounds t (a + x) (fun y hy => h y (by simp [hy]))
    constructor
    · linarith [ht.1]
    · push_cast
      linarith [ht.2]

/-- `findMatchingPool` rejects every pool: the second filter compares the
constant additional time 20 against the 15-minute cutoff. -/
lemma findMatchingPool_eq_none (pools : List (ℕ × PoolMatch)) (request : PoolRequest) :
    findMatchingPool pools request = none := by
  induction pools with
  | nil => rfl
  | cons p rest ih =>
    rw [findMatchingPool, if_neg, ih]
    rintro ⟨-, htime, -⟩
    have h20 : calculateAdditionalTime p.2 request = 20 := by
      simp [calculateAdditionalTime]
      norm_num
    rw [h20] at htime
    norm_num at htime

end

noncomputable section


lemma removeReqById_length_le :
    ∀ (l : List PoolRequest) (rid : String), (removeReqById l rid).length ≤ l.length
  | [], _ => le_rfl
  | r :: rest, rid => by
    rw [removeReqById]
    split
    · simp
    · simpa using removeReqById_length_le rest rid

lemma removeFromPools_mem_cases :
    ∀ (l : List (ℕ × PoolMatch)) (rid : String) (pid : ℕ) (pool : PoolMatch),
      (pid, pool) ∈ removeFromPools l rid →
        (pid, pool) ∈ l ∨
        ∃ pool', (pid, pool') ∈ l ∧
          pool = recomputePool pool' (removeReqById pool'.requests rid) ∧
          (removeReqById pool'.requests rid) ≠ []
  | [], rid, pid, pool, h => by
    simp [removeFromPools] at h
  | (pid0, pool0) :: rest, rid, pid, pool, h => by
    rw [removeFromPools] at h
    split at h
    · split at h
      · exact Or.inl (List.mem_cons_of_mem _ h)
      · rename_i hne
        rcases List.mem_cons.mp h with heq | hrest
        · right
          have hpid : pid = pid0 := congrArg Prod.fst heq
          have hpool : pool = recomputePool pool0 (removeReqById pool0.requests rid) :=
            congrArg Prod.snd heq
          refine ⟨pool0, ?_, hpool, ?_⟩
          · rw [hpid]
            exact List.mem_cons_self _ _
          · intro hempty
            exact hne (by simp [hempty])
        · exact Or.inl (List.mem_cons_of_mem _ hrest)
    · rcases List.mem_cons.mp h with heq | hrest
      · exact Or.inl (heq ▸ List.mem_cons_self _ _)
      · rcases removeFromPools_mem_cases rest rid pid pool hrest with h1 | ⟨pool', h1, h2, h3⟩
        · exact Or.inl (List.mem_cons_of_mem _ h1)
        · exact Or.inr ⟨pool', List.mem_cons_of_mem _ h1, h2, h3⟩

lemma removeFromPools_map_fst_sublist :
    ∀ (l : List (ℕ × PoolMatch)) (rid : String),
      List.Sublist ((removeFromPools l rid).map Prod.fst) (l.map Prod.fst)
  | [], _ => List.Sublist.refl _
  | (pid0, pool0) :: rest, rid => by
    rw [removeFromPools]
    split
    · split
      · exact List.sublist_cons_of_sublist _ (List.Sublist.refl _)
      · simp only [List.map_cons]
        exact List.Sublist.cons₂ _ (List.Sublist.refl _)
    · simp only [List.map_cons]
      exact List.Sublist.cons₂ _ (removeFromPools_map_fst_sublist rest rid)

end

noncomputable section

/-- Since `findMatchingPool` rejects every pool, `addPoolRequest` always
takes the create-new-pool branch. -/
lemma addPoolRequest_eq_create (st : ServiceState) (request : PoolRequest) :
    addPoolRequest st request =
      createNewPool
        { st with activeRequests := mapSet st.activeRequests request.id request } request := by
  rw [addPoolRequest, findMatchingPool_eq_none]

lemma reachable_wf : ∀ (st : ServiceState), Reachable st → PoolsWF st := by
  intro st h
  induction h with
  | init =>
    refine ⟨?_, ?_, ?_⟩ <;> simp [PoolsWF]
  | add st request hst ih =>
    obtain ⟨hsz, hnd, hlt⟩ := ih
    rw [addPoolRequest_eq_create]
    simp only [createNewPool]
    refine ⟨?_, ?_, ?_⟩
    · intro pid pool hmem
      rcases List.mem_append.mp hmem with h1 | h1
      · exact hsz pid pool h1
      · simp only [List.mem_singleton, Prod.mk.injEq] at h1
        rw [h1.2]
        exact ⟨by simp, by simp⟩
    · rw [List.map_append, List.nodup_append]
      refine ⟨hnd, List.nodup_singleton _, ?_⟩
      intro x hx hx'
      simp only [List.map_cons, List.map_nil, List.mem_singleton] at hx'
      obtain ⟨⟨pid, pool⟩, hmem, rfl⟩ := List.mem_map.mp hx
      exact absurd (hlt pid pool hmem) (by omega)
    · intro pid pool hmem
      rcases List.mem_append.mp hmem with h1 | h1
      · exact Nat.lt_succ_of_lt (hlt pid pool h1)
      · simp only [List.mem_singleton, Prod.mk.injEq] at h1
        rw [h1.1]
        exact Nat.lt_succ_self _
  | remove st rid hst ih =>
    obtain ⟨hsz, hnd, hlt⟩ := ih
    simp only [removeFromPool]
    refine ⟨?_, ?_, ?_⟩
    · intro pid pool hmem
      rcases removeFromPools_mem_cases st.pools rid pid pool hmem with h1 | ⟨pool', h1, h2, h3⟩
      · exact hsz pid pool h1
      · subst h2
        refine ⟨by simpa [recomputePool] using h3, ?_⟩
        simp only [recomputePool]
        exact le_trans (removeReqById_length_le pool'.requests rid) (hsz pid pool' h1).2
    · exact List.Nodup.sublist (removeFromPools_map_fst_sublist st.pools rid) hnd
    · intro pid pool hmem
      rcases removeFromPools_mem_cases st.pools rid pid pool hmem with h1 | ⟨pool', h1, h2, h3⟩
      · exact hlt pid pool h1
      · exact hlt pid pool' h1

end

noncomputable section

lemma find?_fst_eq_none (l : List (ℕ × PoolMatch)) (pid : ℕ)
    (h : pid ∉ l.map Prod.fst) :
    l.find? (fun pr => pr.1 == pid) = none := by
  induction l with
  | nil => rfl
  | cons a rest ih =>
    simp only [List.map_cons, List.mem_cons, not_or] at h
    rw [List.find?_cons]
    have ha : (a.1 == pid) = false := by
      simp only [beq_eq_false_iff_ne, ne_eq]
      intro heq
      exact h.1 heq.symm
    rw [ha]
    exact ih h.2

lemma removeFromPools_sole :
    ∀ (pools : List (ℕ × PoolMatch)) (pid : ℕ) (pool : PoolMatch) (r : PoolRequest),
      (pid, pool) ∈ pools →
      pool.requests = [r] →
      (∀ (pid' : ℕ) (pool' : PoolMatch), (pid', pool') ∈ pools →
        (∃ q ∈ pool'.requests, q.id = r.id) → (pid', pool') = (pid, pool)) →
      (pools.map Prod.fst).Nodup →
      pid ∉ (removeFromPools pools r.id).map Prod.fst
  | [], pid, pool, r, hmem, _, _, _ => by
    simp at hmem
  | (pid0, pool0) :: rest, pid, pool, r, hmem, hreq, huniq, hnd => by
    rw [removeFromPools]
    by_cases hcont : ∃ q ∈ pool0.requests, q.id = r.id
    · rw [if_pos hcont]
      have heq : (pid0, pool0) = (pid, pool) :=
        huniq pid0 pool0 (List.mem_cons_self _ _) hcont
      have hpid0 : pid0 = pid := congrArg Prod.fst heq
      have hpool0 : pool0 = pool := congrArg Prod.snd heq
      have hempty : removeReqById pool0.requests r.id = [] := by
        rw [hpool0, hreq, removeReqById]
        rw [if_pos rfl]
      rw [hempty]
      simp only [List.isEmpty_nil, if_true]
      simp only [List.map_cons, List.nodup_cons] at hnd
      rw [← hpid0]
      exact hnd.1
    · rw [if_neg hcont]
      have hmem' : (pid, pool) ∈ rest := by
        rcases List.mem_cons.mp hmem with heq | h
        · exfalso
          apply hcont
          have hpool0 : pool0 = pool := (congrArg Prod.snd heq).symm
          refine ⟨r, ?_, rfl⟩
          rw [hpool0, hreq]
          exact List.mem_cons_self _ _
        · exact h
      simp only [List.map_cons, List.nodup_cons] at hnd
      have hne : pid ≠ pid0 := by
        intro heq
        exact hnd.1 (heq ▸ List.mem_map.mpr ⟨(pid, pool), hmem', rfl⟩)
      simp only [List.map_cons, List.mem_cons, not_or]
      refine ⟨hne, ?_⟩
      exact removeFromPools_sole rest pid pool r hmem' hreq
        (fun pid' pool' h1 h2 => huniq pid' pool' (List.mem_cons_of_mem _ h1) h2) hnd.2

lemma removeFromPools_noop :
    ∀ (l : List (ℕ × PoolMatch)) (rid : String),
      (∀ (pid : ℕ) (pool : PoolMatch), (pid, pool) ∈ l →
        ∀ r ∈ pool.requests, r.id ≠ rid) →
      removeFromPools l rid = l
  | [], _, _ => rfl
  | (pid0, pool0) :: rest, rid, h => by
    rw [removeFromPools, if_neg, removeFromPools_noop rest rid
      (fun pid pool hm => h pid pool (List.mem_cons_of_mem _ hm))]
    rintro ⟨q, hq, hqid⟩
    exact h pid0 pool0 (List.mem_cons_self _ _) q hq hqid

lemma find?_map_update :
    ∀ (l : List (ℕ × PoolMatch)) (poolId : ℕ) (request : PoolRequest) (pr : ℕ × PoolMatch),
      ((l.map (fun pr => if pr.1 = poolId then (pr.1, joinPool pr.2 request) else pr)).find?
          (fun pr => pr.1 == poolId)) = some pr →
      ∃ q, pr = (poolId, joinPool q request)
  | [], _, _, _, h => by
    simp at h
  | a :: rest, poolId, request, pr, h => by
    simp only [List.map_cons] at h
    by_cases ha : a.1 = poolId
    · rw [if_pos ha, List.find?_cons] at h
      have : ((a.1, joinPool a.2 request).1 == poolId) = true := by
        simp [ha]
      rw [this] at h
      injection h with h
      exact ⟨a.2, by rw [← h, ha]⟩
    · rw [if_neg ha, List.find?_cons] at h
      have : (a.1 == poolId) = false := by
        simp [ha]
      rw [this] at h
      exact find?_map_update rest poolId request pr h

end

noncomputable section


lemma stA_pools : stA.pools = [(0, poolA)] := rfl

lemma distA : calculateDistance coordA coordA = 0 :=
  calculateDistance_same _ _ rfl rfl

lemma sortByTime_r12 : sortByTime [req1, req2] = [req1, req2] := by
  rw [sortByTime]
  simp only [List.insertionSort, List.orderedInsert]
  rw [if_pos]
  show req1.createdAt ≤ req2.createdAt
  norm_num [req1, req2]

lemma nearestIndex_AA : nearestIndex coordA [coordA, coordA] = 0 := by
  rw [nearestIndex, nearestIndexAux, if_neg, nearestIndexAux]
  rw [distA]
  exact lt_irrefl 0

lemma nearestIndex_A : nearestIndex coordA [coordA] = 0 := by
  rw [nearestIndex, nearestIndexAux]

lemma nnLoop_AA : nnLoop coordA [coordA, coordA] = [coordA, coordA] := by
  rw [nnLoop_cons, nearestIndex_AA]
  simp only [List.getD_cons_zero, List.eraseIdx_cons_zero]
  rw [nnLoop_cons, nearestIndex_A]
  simp only [List.getD_cons_zero, List.eraseIdx_cons_zero]
  rw [nnLoop_nil]

lemma optimizeRoute_r12 : optimizeRoute [req1, req2] = [coordA, coordA, coordA, coordA] := by
  rw [optimizeRoute_cons2, sortByTime_r12]
  show [coordA, coordA] ++ nnLoop ([coordA, coordA].getLastD default) [coordA, coordA] = _
  rw [show ([coordA, coordA].getLastD default) = coordA from rfl, nnLoop_AA]
  rfl

lemma totalDistance_r12 : calculateTotalDistance (optimizeRoute [req1, req2]) = 0 := by
  rw [optimizeRoute_r12]
  rw [calculateTotalDistance, calculateTotalDistance, calculateTotalDistance,
    calculateTotalDistance, distA]
  · ring
  · intro a b rest h
    simp at h

end

noncomputable section

/-- C1 (counterexample): on the concrete join of `req2` into `req1`'s pool,
the resulting `costPerCustomer` is `70/3` (the source divides the base fare
plus `(totalDistance + 2) * 10` by `memberCount + 1`), while the claimed
value `(50 + totalDistance * 10) / memberCount` is `25`. -/
theorem C1_counterexample :
    (getPool stB 0).map (fun p =>
      (p.costPerCustomer, (50 + p.totalDistance * 10) / (p.requests.length : ℝ))) =
      some (70 / 3, 25) ∧ (70 / 3 : ℝ) ≠ 25 := by
  have hpool : getPool stB 0 = some (joinPool poolA req2) := rfl
  have htd0 : calculateTotalDistance (optimizeRoute (poolA.requests ++ [req2])) = 0 := by
    have hl : poolA.requests ++ [req2] = [req1, req2] := rfl
    rw [hl]
    exact totalDistance_r12
  have hcost : (joinPool poolA req2).costPerCustomer =
      (50 + (calculateTotalDistance (optimizeRoute (poolA.requests ++ [req2])) + 2) * 10) /
        (((poolA.requests ++ [req2]).length : ℝ) + 1) := rfl
  have htd1 : (joinPool poolA req2).totalDistance = 0 := htd0
  have hlen1 : ((joinPool poolA req2).requests.length : ℝ) = 2 := by
    have hl : (joinPool poolA req2).requests = [req1, req2] := rfl
    rw [hl]
    norm_num
  constructor
  · rw [hpool, Option.map_some']
    rw [hcost, htd0, htd1, hlen1]
    have hl2 : ((poolA.requests ++ [req2]).length : ℝ) = 2 := by
      have hl : poolA.requests ++ [req2] = [req1, req2] := rfl
      rw [hl]
      norm_num
    rw [hl2]
    norm_num
  · norm_num

/-- C1 (amended): after `addToExistingPool` returns, the updated pool's
`costPerCustomer` equals `(50 + (totalDistance + 2) * 10)` divided by
`memberCount + 1`, where `totalDistance` is the sum of consecutive-stop
distances along the freshly optimized route — not the claimed
`(50 + totalDistance * 10) / memberCount`. -/
theorem C1_join_cost (st : ServiceState) (poolId : ℕ) (request : PoolRequest)
    (p : PoolMatch)
    (h : getPool (addToExistingPool st poolId request).2 poolId = some p) :
    p.costPerCustomer =
      (50 + (p.totalDistance + 2) * 10) / ((p.requests.length : ℝ) + 1) ∧
    p.totalDistance = calculateTotalDistance (optimizeRoute p.requests) := by
  simp only [addToExistingPool, getPool] at h
  rcases Option.map_eq_some'.mp h with ⟨pr, hpr, hpr2⟩
  obtain ⟨q, hq⟩ := find?_map_update st.pools poolId request pr hpr
  have hp : p = joinPool q request := by
    rw [← hpr2, hq]
  subst hp
  exact ⟨rfl, rfl⟩

/-- C1 (witness): the amended cost equation instantiated on the concrete
join of `req2` into `req1`'s pool. -/
theorem C1_witness :
    (joinPool poolA req2).costPerCustomer =
      (50 + ((joinPool poolA req2).totalDistance + 2) * 10) /
        (((joinPool poolA req2).requests.length : ℝ) + 1) :=
  (C1_join_cost stA 0 req2 (joinPool poolA req2) rfl).1

/-- C2: the additional-delay filter excludes every pool — the modelled
delay is the constant 20 minutes, above the 15-minute cutoff, so
`findMatchingPool` always returns no pool and `addPoolRequest` always
creates a new pool; in particular the perfectly compatible `req2`
(coincident pickup, dropoff and bearing with `req1`) ends up in a second
single-member pool instead of merging. -/
theorem C2_no_merge :
    (∀ (pool : PoolMatch) (request : PoolRequest),
      calculateAdditionalTime pool request = 20) ∧
    (∀ (pools : List (ℕ × PoolMatch)) (request : PoolRequest),
      findMatchingPool pools request = none) ∧
    (addPoolRequest stA req2).2.pools.map (fun pr => pr.2.requests.length) = [1, 1] := by
  refine ⟨?_, findMatchingPool_eq_none, ?_⟩
  · intro pool request
    simp only [calculateAdditionalTime]
    norm_num
  · rw [addPoolRequest_eq_create]
    rfl

/-- C3 (counterexample): the pool created by `addPoolRequest` for `req1`
carries the placeholder `costPerCustomer = 100`, while the cost allocator's
value for its membership, `(50 + totalDistance * 10) / memberCount`, is 50. -/
theorem C3_counterexample :
    (getPool stA 0).map (fun p =>
      (p.costPerCustomer, (50 + p.totalDistance * 10) / (p.requests.length : ℝ))) =
      some (100, 50) ∧ (100 : ℝ) ≠ 50 := by
  constructor
  · have hpool : getPool stA 0 = some poolA := rfl
    rw [hpool, Option.map_some']
    have h1 : poolA.costPerCustomer = 100 := rfl
    have h2 : poolA.totalDistance = 0 := distA
    have h3 : poolA.requests.length = 1 := rfl
    rw [h1, h2, h3]
    norm_num
  · norm_num

/-- C3 (amended): the recomputation performed by `removeFromPool` on a
surviving pool derives `totalDistance`, `estimatedTime` and
`costPerCustomer` purely from the current membership (with
`costPerCustomer = totalDistance * 10 / memberCount`, the base fare
omitted), and is idempotent; a pool freshly created by `addPoolRequest`
instead carries the placeholders `estimatedTime = 30` and
`costPerCustomer = 100` alongside its membership-derived distance. -/
theorem C3_recompute :
    (∀ (pool : PoolMatch) (requests : List PoolRequest),
      (recomputePool pool requests).totalDistance =
          calculateTotalDistance (optimizeRoute requests) ∧
        (recomputePool pool requests).estimatedTime =
          calculateTotalDistance (optimizeRoute requests) * 2 +
            ((requests.length : ℝ) * 2) * 5 ∧
        (recomputePool pool requests).costPerCustomer =
          calculateTotalDistance (optimizeRoute requests) * 10 / (requests.length : ℝ) ∧
        recomputePool (recomputePool pool requests) requests =
          recomputePool pool requests) ∧
    (∀ (st : ServiceState) (request : PoolRequest),
      (createNewPool st request).2.pools =
        st.pools ++ [(st.nextPoolId,
          ⟨st.nextPoolId, [request], [request.pickup, request.dropoff],
            calculateDistance request.pickup request.dropoff, 30, 100, 0⟩)]) := by
  constructor
  · intro pool requests
    exact ⟨rfl, rfl, rfl, rfl⟩
  · intro st request
    rfl

/-- C4 (counterexample): the single-request pool for `req1` has size 1,
route `[pickup, dropoff]` and savings 0 as claimed, but its
`costPerCustomer` is the placeholder 100, not `50 + distance * 10 = 50`. -/
theorem C4_counterexample :
    (getPool stA 0).map (fun p =>
      (p.requests, p.route, p.savings, p.costPerCustomer)) =
      some ([req1], [coordA, coordA], 0, 100) ∧
    (100 : ℝ) ≠ 50 + calculateDistance coordA coordA * 10 := by
  constructor
  · rfl
  · rw [distA]
    norm_num

/-- C4 (amended): every request added to an empty registry yields exactly
one pool, of size 1, with route `[pickup, dropoff]`,
`totalDistance = distance(pickup, dropoff)`, `savings = 0`, and the
placeholder `estimatedTime = 30` and `costPerCustomer = 100`. -/
theorem C4_single_request (request : PoolRequest) (n : ℕ) :
    getPool (addPoolRequest ⟨[], [], n⟩ request).2
        (addPoolRequest ⟨[], [], n⟩ request).1 =
      some ⟨n, [request], [request.pickup, request.dropoff],
        calculateDistance request.pickup request.dropoff, 30, 100, 0⟩ ∧
    (addPoolRequest ⟨[], [], n⟩ request).2.pools.length = 1 := by
  rw [addPoolRequest_eq_create]
  constructor
  · simp [createNewPool, getPool]
  · simp [createNewPool]

/-- C5: for more than one request, `optimizeRoute` yields all pickups
first, in ascending creation time (a stable sort of the requests), followed
by the spec's nearest-neighbour dropoff order starting from the last
pickup, where a tie in minimum distance is won by the first occurrence in
input array order (`specNN`). -/
theorem C5_route_spec (requests : List PoolRequest) (h : 1 < requests.length) :
    optimizeRoute requests =
      (sortByTime requests).map (fun r => r.pickup) ++
        specNN (((sortByTime requests).map (fun r => r.pickup)).getLastD default)
          (requests.map (fun r => r.dropoff)) ∧
    List.Sorted (fun a b : PoolRequest => a.createdAt ≤ b.createdAt) (sortByTime requests) ∧
    List.Perm (sortByTime requests) requests := by
  refine ⟨?_, sortByTime_sorted requests, sortByTime_perm requests⟩
  cases requests with
  | nil => simp at h
  | cons a t =>
    cases t with
    | nil => simp at h
    | cons b t2 =>
      rw [optimizeRoute_cons2, nnLoop_eq_specNN]

/-- C5 (witness): the route characterization instantiated on the concrete
two-request list. -/
theorem C5_witness :
    optimizeRoute [req1, req2] =
      (sortByTime [req1, req2]).map (fun r => r.pickup) ++
        specNN (((sortByTime [req1, req2]).map (fun r => r.pickup)).getLastD default)
          ([req1, req2].map (fun r => r.dropoff)) ∧
    List.Sorted (fun a b : PoolRequest => a.createdAt ≤ b.createdAt)
      (sortByTime [req1, req2]) ∧
    List.Perm (sortByTime [req1, req2]) [req1, req2] :=
  C5_route_spec [req1, req2] (by simp)

/-- C6: for every pool with at least one member, the compatibility score
lies in `[0, 1]`. -/
theorem C6_score_bounded (pool : PoolMatch) (request : PoolRequest)
    (h : pool.requests ≠ []) :
    0 ≤ calculateRouteCompatibility pool request ∧
      calculateRouteCompatibility pool request ≤ 1 := by
  have hn : 0 < pool.requests.length := List.length_pos.mpr h
  have hb := foldl_add_bounds (pool.requests.map (fun e => requestPairScore e request)) 0
    (fun x hx => by
      obtain ⟨e, he, hfe⟩ := List.mem_map.mp hx
      rw [← hfe]
      exact requestPairScore_mem e request)
  rw [List.length_map] at hb
  simp only [calculateRouteCompatibility]
  rw [if_pos hn]
  have hnR : (0 : ℝ) < (pool.requests.length : ℝ) := by
    exact_mod_cast hn
  constructor
  · apply div_nonneg _ (le_of_lt hnR)
    linarith [hb.1]
  · rw [div_le_one hnR]
    linarith [hb.2]

/-- C6 (witness): score boundedness instantiated on the concrete pool. -/
theorem C6_witness :
    0 ≤ calculateRouteCompatibility poolA req2 ∧
      calculateRouteCompatibility poolA req2 ≤ 1 :=
  C6_score_bounded poolA req2 (by simp [poolA])

/-- C7: in every reachable registry state no pool is empty, and removing
the sole member of a pool (whose request id occurs in no other pool, per
the data model's unique-id assumption) deletes that pool, after which
`getPool` returns the not-found value. -/
theorem C7_delete_on_empty :
    (∀ (st : ServiceState), Reachable st →
      ∀ (pid : ℕ) (pool : PoolMatch), (pid, pool) ∈ st.pools → pool.requests ≠ []) ∧
    (∀ (st : ServiceState) (pid : ℕ) (pool : PoolMatch) (r : PoolRequest),
      Reachable st → (pid, pool) ∈ st.pools → pool.requests = [r] →
      (∀ (pid' : ℕ) (pool' : PoolMatch), (pid', pool') ∈ st.pools →
        (∃ q ∈ pool'.requests, q.id = r.id) → (pid', pool') = (pid, pool)) →
      getPool (removeFromPool st r.id) pid = none) := by
  constructor
  · intro st hst pid pool hmem
    exact ((reachable_wf st hst).1 pid pool hmem).1
  · intro st pid pool r hst hmem hreq huniq
    have hnd := (reachable_wf st hst).2.1
    have hnotin := removeFromPools_sole st.pools pid pool r hmem hreq huniq hnd
    simp only [removeFromPool, getPool]
    rw [find?_fst_eq_none _ _ hnotin]
    rfl

/-- C7 (witness): removing the sole member of the concrete pool deletes it. -/
theorem C7_witness :
    poolA.requests ≠ [] ∧ getPool (removeFromPool stA "r1") 0 = none := by
  have hre : Reachable stA := Reachable.add emptyState req1 Reachable.init
  have hmem : (0, poolA) ∈ stA.pools := by
    rw [stA_pools]
    exact List.mem_cons_self _ _
  refine ⟨C7_delete_on_empty.1 stA hre 0 poolA hmem, ?_⟩
  exact C7_delete_on_empty.2 stA 0 poolA req1 hre hmem rfl
    (fun pid' pool' hmem' hq => by
      rw [stA_pools] at hmem'
      simpa using List.mem_singleton.mp hmem')

/-- C8: every pool in a reachable registry state has between 1 and 3
members, and a pool already holding 3 members passes none of the join
filters (the capacity check fails first), so a new request is never added
to it. -/
theorem C8_capacity :
    (∀ (st : ServiceState), Reachable st →
      ∀ (pid : ℕ) (pool : PoolMatch), (pid, pool) ∈ st.pools →
        1 ≤ pool.requests.length ∧ pool.requests.length ≤ 3) ∧
    (∀ (pool : PoolMatch) (request : PoolRequest),
      3 ≤ pool.requests.length → ¬poolJoinable pool request) := by
  constructor
  · intro st hst pid pool hmem
    obtain ⟨hne, hle⟩ := (reachable_wf st hst).1 pid pool hmem
    exact ⟨List.length_pos.mpr hne, hle⟩
  · rintro pool request h3 ⟨hlt, -⟩
    omega

/-- C8 (witness): the capacity bounds on the concrete reachable pool, and
the join filter rejecting a concrete full pool. -/
theorem C8_witness :
    (1 ≤ poolA.requests.length ∧ poolA.requests.length ≤ 3) ∧
      ¬poolJoinable pool3 req2 := by
  have hre : Reachable stA := Reachable.add emptyState req1 Reachable.init
  have hmem : (0, poolA) ∈ stA.pools := by
    rw [stA_pools]
    exact List.mem_cons_self _ _
  exact ⟨C8_capacity.1 stA hre 0 poolA hmem,
    C8_capacity.2 pool3 req2 (by norm_num [pool3])⟩

/-- C9: removing a request id that belongs to no pool leaves every pool
(and hence all derived fields) unchanged; the operation is total, so no
error is raised. -/
theorem C9_unknown_noop (st : ServiceState) (requestId : String)
    (h : ∀ (pid : ℕ) (pool : PoolMatch), (pid, pool) ∈ st.pools →
      ∀ r ∈ pool.requests, r.id ≠ requestId) :
    (removeFromPool st requestId).pools = st.pools :=
  removeFromPools_noop st.pools requestId h

/-- C9 (witness): removing the unknown id on the concrete registry is a
no-op on the pools. -/
theorem C9_witness : (removeFromPool stA "zz").pools = stA.pools := by
  apply C9_unknown_noop
  intro pid pool hmem r hr
  rw [stA_pools] at hmem
  have hpp := List.mem_singleton.mp hmem
  have hpool : pool = poolA := congrArg Prod.snd hpp
  subst hpool
  have hr1 : r = req1 := List.mem_singleton.mp hr
  subst hr1
  exact (by decide : ¬(("r1" : String) = "zz"))

/-- C10: the compatibility scorer is total at the empty pool: the
zero-comparisons guard returns exactly 0, whatever the candidate and the
pool's other fields are. -/
theorem C10_empty_pool_zero (i : ℕ) (route : List Coord) (td et cpc sv : ℝ)
    (request : PoolRequest) :
    calculateRouteCompatibility ⟨i, [], route, td, et, cpc, sv⟩ request = 0 := rfl

end
